import Mathlib

/-!
Shallow embedding of `src/obsidian-templater.py`
(giessmann1/python-obsidian-templater).

Modelling conventions:
* Python strings are modelled by `String`; `str.lower`, `str.isalnum`,
  `str.isspace`, `str.strip`, `str.replace` are modelled by their ASCII
  counterparts (`pyLower`, `Char.isAlphanum`, `Char.isWhitespace`,
  `pyTrim`, `pyReplace`); the programs and claims only exercise
  ASCII data, where the semantics coincide.
* The loosely typed citeproc-JSON metadata is modelled by the inductive
  `Value`; a Python dict is an insertion-ordered association list.
* `difflib.SequenceMatcher(...).ratio()` returns a float in [0,1]; the
  matcher only compares ratios against each other and against 0.9, so the
  ratio function is carried as an explicit parameter of type
  `String → String → ℚ` and the threshold as the rational 9/10.
* `html.unescape` is modelled for the standard XML entities
  (amp, lt, gt, quot); unknown entities are left verbatim, as in Python.
-/

namespace ObsidianTemplater

/-- Whether `pat` occurs as a contiguous sublist. -/
def containsSub (pat : List Char) : List Char → Bool
  | [] => pat.isEmpty
  | c :: cs => pat.isPrefixOf (c :: cs) || containsSub pat cs

/-- Python `sub in s` (substring containment). -/
def pyContains (s sub : String) : Bool := containsSub sub.data s.data

/-- Python `s.lower()` (ASCII). -/
def pyLower (s : String) : String := String.mk (s.data.map Char.toLower)

/-- Python `s.strip()`: drop leading and trailing whitespace. -/
def pyTrim (s : String) : String :=
  String.mk
    (((s.data.dropWhile Char.isWhitespace).reverse.dropWhile Char.isWhitespace).reverse)

/-- Replace every leftmost, non-overlapping occurrence of `p :: pat` by
`repl`; the fuel argument starts at the input length, which each step
strictly decreases, keeping the recursion structural. -/
def pyReplaceFuel (p : Char) (pat repl : List Char) : Nat → List Char → List Char
  | 0, l => l
  | _, [] => []
  | fuel + 1, c :: cs =>
    if (p :: pat).isPrefixOf (c :: cs) then
      repl ++ pyReplaceFuel p pat repl fuel (cs.drop pat.length)
    else c :: pyReplaceFuel p pat repl fuel cs

/-- Python `s.replace(pat, repl)` for a nonempty `pat` (the program never
replaces an empty pattern). -/
def pyReplace (s pat repl : String) : String :=
  match pat.data with
  | [] => s
  | p :: ps => String.mk (pyReplaceFuel p ps repl.data s.data.length s.data)

/-- Python `s.split(sep)` for a nonempty `sep`, keeping empty pieces; same
fuel scheme as `pyReplaceFuel`. -/
def pySplitOnFuel (p : Char) (pat : List Char) :
    Nat → List Char → List Char → List (List Char)
  | 0, l, acc => [(acc.reverse ++ l)]
  | _, [], acc => [acc.reverse]
  | fuel + 1, c :: cs, acc =>
    if (p :: pat).isPrefixOf (c :: cs) then
      acc.reverse :: pySplitOnFuel p pat fuel (cs.drop pat.length) []
    else pySplitOnFuel p pat fuel cs (c :: acc)

/-- Python `s.split(sep)` for a nonempty separator. -/
def pySplitOn (s sep : String) : List String :=
  match sep.data with
  | [] => [s]
  | p :: ps => (pySplitOnFuel p ps s.data.length s.data []).map String.mk

/-- Splitting on single whitespace characters, keeping empty pieces. -/
def splitWsAux : List Char → List Char → List (List Char)
  | [], acc => [acc.reverse]
  | c :: cs, acc =>
    if c.isWhitespace then acc.reverse :: splitWsAux cs []
    else splitWsAux cs (c :: acc)

/-- Python `" and ".join`-style joining. -/
def pyJoinSep (sep : String) : List String → String
  | [] => ""
  | [x] => x
  | x :: y :: xs => x ++ sep ++ pyJoinSep sep (y :: xs)

/-- Python `s.rstrip(chars)`: drop trailing characters belonging to `cs`. -/
def pyRstripSet (s : String) (cs : List Char) : String :=
  String.mk ((s.data.reverse.dropWhile (fun c => cs.contains c)).reverse)

/-- Python `s.rstrip()`: drop trailing whitespace. -/
def pyRstripWs (s : String) : String :=
  String.mk ((s.data.reverse.dropWhile Char.isWhitespace).reverse)

/-- The Python join-filter keeping only alphanumeric and whitespace
characters. -/
def pyFilterAlnumSpace (s : String) : String :=
  String.mk (s.data.filter (fun c => c.isAlphanum || c.isWhitespace))

/-- Python `s.split()`: split on whitespace runs, dropping empty pieces. -/
def pySplitWs (s : String) : List String :=
  ((splitWsAux s.data []).map String.mk).filter (fun t => t ≠ "")

/-- Python values as they occur in the citeproc-JSON metadata dict. -/
inductive Value where
  | none
  | bool (b : Bool)
  | int (n : Int)
  | str (s : String)
  | list (xs : List Value)
  | dict (entries : List (String × Value))

/-- Scanner for the model of `html.unescape`: the standard XML entities are
decoded, anything else is copied verbatim. -/
def unescapeGo : List Char → List Char
  | '&' :: 'a' :: 'm' :: 'p' :: ';' :: rest => '&' :: unescapeGo rest
  | '&' :: 'l' :: 't' :: ';' :: rest => '<' :: unescapeGo rest
  | '&' :: 'g' :: 't' :: ';' :: rest => '>' :: unescapeGo rest
  | '&' :: 'q' :: 'u' :: 'o' :: 't' :: ';' :: rest => '"' :: unescapeGo rest
  | c :: rest => c :: unescapeGo rest
  | [] => []

/-- Model of `html.unescape` (standard XML entities; unknown entities are
left verbatim). -/
def html_unescape (s : String) : String := String.mk (unescapeGo s.data)

mutual
/-- Python `repr` rendering of a `Value` (used by `str` for containers). -/
def pyRepr : Value → String
  | .none => "None"
  | .bool b => if b then "True" else "False"
  | .int n => toString n
  | .str s => "\x27" ++ s ++ "\x27"
  | .list xs => "[" ++ pyReprList xs ++ "]"
  | .dict d => "\x7b" ++ pyReprDict d ++ "\x7d"

/-- Comma-joined `repr`s of a list of values. -/
def pyReprList : List Value → String
  | [] => ""
  | [x] => pyRepr x
  | x :: y :: xs => pyRepr x ++ ", " ++ pyReprList (y :: xs)

/-- Comma-joined `repr`s of dict entries. -/
def pyReprDict : List (String × Value) → String
  | [] => ""
  | [(k, v)] => "\x27" ++ k ++ "\x27: " ++ pyRepr v
  | (k, v) :: e :: xs => "\x27" ++ k ++ "\x27: " ++ pyRepr v ++ ", " ++ pyReprDict (e :: xs)
end

/-- Python `str(v)`. -/
def pyStr : Value → String
  | .str s => s
  | v => pyRepr v

/-- Python truthiness: whether a value is falsy. -/
def Value.isFalsy : Value → Bool
  | .none => true
  | .bool b => !b
  | .int n => n == 0
  | .str s => s == ""
  | .list xs => xs.isEmpty
  | .dict d => d.isEmpty

/-- A Python dict (insertion-ordered association list). -/
abbrev Metadata := List (String × Value)

/-- First-match lookup in an association list (Python dict lookup; keys are
unique in every dict the program builds). -/
def lookupV : Metadata → String → Option Value
  | [], _ => Option.none
  | (k, v) :: rest, key => if k = key then some v else lookupV rest key

/-- Python `d.get(key, default)`. -/
def dget (m : Metadata) (k : String) (dflt : Value) : Value :=
  (lookupV m k).getD dflt

/-- Python `d.get` with an empty-string default for a string-typed field
(the program calls string methods on the result, so a non-string value
would raise; such values are modelled as the empty string). -/
def getStrD (m : Metadata) (k : String) : String :=
  match lookupV m k with
  | some (.str s) => s
  | _ => ""

/-- Python `d[key] = v`: overwrite in place when present, else append. -/
def setMeta (m : Metadata) (k : String) (v : Value) : Metadata :=
  if m.any (fun p => p.1 = k) then
    m.map (fun p => if p.1 = k then (k, v) else p)
  else m ++ [(k, v)]

/-- Python `d[key] = v` on a string-valued dict. -/
def setAssoc (l : List (String × String)) (k v : String) : List (String × String) :=
  if l.any (fun p => p.1 = k) then
    l.map (fun p => if p.1 = k then (k, v) else p)
  else l ++ [(k, v)]

/-- Lookup in a string-valued dict. -/
def assocFind (l : List (String × String)) (k : String) : Option String :=
  (l.find? (fun p => p.1 = k)).map (fun p => p.2)

/-- Python `d.update(u)` (u applied in order). -/
def updMany (l : List (String × String)) (u : List (String × String)) :
    List (String × String) :=
  u.foldl (fun acc kv => setAssoc acc kv.1 kv.2) l

/-- Iterating over a value expected to be a list (non-lists are outside
the inputs of every claim). -/
def asList : Value → List Value
  | .list xs => xs
  | _ => []

/-- Python `metadata.get("type") == s`. -/
def typeIs (m : Metadata) (s : String) : Bool :=
  match dget m "type" Value.none with
  | .str t => t == s
  | _ => false

/-- A row of the SJR ranking table (`scimagojr_2024.csv`). Numeric cells are
modelled by their string rendering, which is all the program uses; a NaN
`Areas` cell is `Option.none` (cf. `pd.notna`). -/
structure SjrRow where
  Title : String
  quartile : String
  hIndex : String
  citationsPerDoc : String
  publisher : String
  areas : Option String

/-- The metrics dict returned by `find_journal_metrics`. -/
structure JournalMetrics where
  quartile : String
  hIndex : String
  citationsPerDoc : String
  publisher : String
  areas : List String
deriving DecidableEq

/-- `normalize_journal_name` (lines 291-312): lowercase, rewrite `&` forms
to `and`, `name.replace("the ", "")`, keep alphanumerics and spaces, strip. -/
def normalize_journal_name (name : String) : String :=
  if name = "" then ""
  else
    let n := pyLower name
    let n := pyReplace n " & " " and "
    let n := pyReplace n "&" " and "
    let n := pyReplace n "the " ""
    pyTrim (pyFilterAlnumSpace n)

/-- The normalization as the spec words it: lowercase; replace `" & "` and
`"&"` with `" and "`; strip a single LEADING `"the "` occurrence; drop all
non-alphanumeric, non-space characters; trim. Stated only to compare with
`normalize_journal_name`, which is translated from the source. -/
def normalize_journal_name_claim (name : String) : String :=
  if name = "" then ""
  else
    let n := pyLower name
    let n := pyReplace n " & " " and "
    let n := pyReplace n "&" " and "
    let n := if ("the ".data).isPrefixOf n.data then String.mk (n.data.drop 4) else n
    pyTrim (pyFilterAlnumSpace n)

/-- Building the returned metrics dict from a table row (areas split on `;`
and trimmed; NaN areas become the empty list). -/
def metricsOf (r : SjrRow) : JournalMetrics :=
  { quartile := r.quartile
    hIndex := r.hIndex
    citationsPerDoc := r.citationsPerDoc
    publisher := r.publisher
    areas := match r.areas with
             | some a => (pySplitOn a ";").map pyTrim
             | Option.none => [] }

/-- Exact-match stage of `find_journal_metrics` (lines 330-343): the first
row whose normalized title equals the normalized query. -/
def exact_match_stage (journal_name : String) (rows : List SjrRow) :
    Option JournalMetrics :=
  (rows.find? (fun r =>
    normalize_journal_name r.Title == normalize_journal_name journal_name)).map
    metricsOf

/-- The fuzzy-fallback loop of `find_journal_metrics` (lines 346-354):
running best ratio and best row, updated when `ratio > 0.9 and
ratio > best_ratio`. -/
def fuzzy_go (rr : SjrRow → ℚ) :
    List SjrRow → ℚ → Option SjrRow → Option SjrRow
  | [], _, best => best
  | row :: rest, b, best =>
    if rr row > 9/10 ∧ rr row > b then fuzzy_go rr rest (rr row) (some row)
    else fuzzy_go rr rest b best

/-- The fuzzy fallback on a query: ratios of the normalized query against
the normalized title of every row, threaded through `fuzzy_go` from the
initial state `best_ratio = 0`, `best_match = None`. -/
def fuzzy_best (ratio : String → String → ℚ) (journal_name : String)
    (rows : List SjrRow) : Option SjrRow :=
  fuzzy_go
    (fun row => ratio (normalize_journal_name journal_name)
                      (normalize_journal_name row.Title))
    rows 0 Option.none

/-- `find_journal_metrics` (lines 314-369); the table is `Option.none` when
`load_sjr_data` failed, and the similarity ratio is an explicit parameter. -/
def find_journal_metrics (ratio : String → String → ℚ)
    (journal_name : String) (sjr_data : Option (List SjrRow)) :
    Option JournalMetrics :=
  match sjr_data with
  | Option.none => Option.none
  | some rows =>
    if journal_name = "" then Option.none
    else
      match exact_match_stage journal_name rows with
      | some ms => some ms
      | Option.none =>
        match fuzzy_best ratio journal_name rows with
        | some row => some (metricsOf row)
        | Option.none => Option.none

/-- `clean_author_name` (lines 371-390): a normalized display name, or
`Option.none` for an invalid entry. -/
def clean_author_name : Value → Option String
  | .dict d =>
    let given := pyTrim (getStrD d "given")
    let family := pyTrim (getStrD d "family")
    if given ≠ "" ∨ family ≠ "" then some (pyTrim (given ++ " " ++ family))
    else Option.none
  | .str s =>
    let n := pyTrim s
    if n ≠ "" then some n else Option.none
  | _ => Option.none

/-- `clean_lastname_for_alias` (lines 392-405). -/
def clean_lastname_for_alias (lastname : String) : String :=
  if lastname = "" then "Unknown" else pyReplace (pyTrim lastname) " " "_"

/-- `get_first_valid_author` (lines 407-432). -/
def get_first_valid_author : List Value → String
  | [] => "Unknown"
  | a :: rest =>
    match a with
    | .dict d =>
      let family := pyTrim (getStrD d "family")
      if family ≠ "" then clean_lastname_for_alias family
      else get_first_valid_author rest
    | .str s =>
      let name := pyTrim s
      if name ≠ "" then
        match pySplitWs name with
        | [] => get_first_valid_author rest
        | p :: ps => clean_lastname_for_alias ((p :: ps).getLast (by simp))
      else get_first_valid_author rest
    | _ => get_first_valid_author rest

/-- The validated-people filter (entries kept when `clean_author_name`
accepts them). -/
def valid_people (ps : List Value) : List Value :=
  ps.filter (fun a => (clean_author_name a).isSome)

/-- The shared author/editor fallback (lines 179-190, 470-479, 748-757):
the validated author list, except that a Book record with no valid author
and at least one valid editor uses its validated editors. -/
def effective_authors (m : Metadata) : List Value :=
  let valid := valid_people (asList (dget m "author" (.list [])))
  if typeIs m "Book" && valid.isEmpty then
    let ve := valid_people (asList (dget m "editor" (.list [])))
    if !ve.isEmpty then ve else valid
  else valid

/-- One `"<family-cleaned>, <given>"` author/editor entry (lines 192-194,
204-205). Python would raise `AttributeError` on a bare-string entry here
(it calls `.get` on it); such entries are modelled as having absent
given/family. -/
def author_entry : Value → String
  | .dict d =>
    clean_lastname_for_alias (getStrD d "family") ++ ", " ++ pyTrim (getStrD d "given")
  | _ => clean_lastname_for_alias "" ++ ", "

/-- `author_entries` of `create_bibtex_string` (lines 192-194), over the
effective (fallback-resolved) author list. -/
def author_entries (m : Metadata) : String :=
  pyJoinSep " and " ((effective_authors m).map author_entry)

/-- `editor_entries` of `create_bibtex_string` (lines 197-206): rebuilt from
`metadata.get("editor", [])` (the `editors = []` clearing on line 190 is
overwritten by the re-fetch on line 197). -/
def editor_entries (m : Metadata) : String :=
  pyJoinSep " and "
    ((valid_people (asList (dget m "editor" (.list [])))).map author_entry)

/-- Python `v[0]`: first element of a list, first character of a string (an
out-of-range index raises in Python and is modelled by `Value.none`). -/
def pyIdx0 : Value → Value
  | .list (x :: _) => x
  | .str s => if s.data.isEmpty then Value.none else .str (String.mk (s.data.take 1))
  | _ => Value.none

/-- Python `v[1]` on a list. -/
def pyIdx1 : Value → Value
  | .list (_ :: y :: _) => y
  | _ => Value.none

/-- Python `len`. -/
def pyLen : Value → Nat
  | .list xs => xs.length
  | .str s => s.length
  | .dict d => d.length
  | _ => 0

/-- The nested date-parts access of lines 209,
459, 738); a non-dict `issued` value would raise in Python and is modelled
by the default. -/
def issued_date_parts (m : Metadata) : Value :=
  match dget m "issued" (.dict []) with
  | .dict d => dget d "date-parts" (.list [.list [Value.none]])
  | _ => .list [.list [Value.none]]

/-- The year `[0][0]` of the date-parts. -/
def extract_year (m : Metadata) : Value := pyIdx0 (pyIdx0 (issued_date_parts m))

/-- The month `[0][1]`, present only when the first date-parts entry has
more than one element (lines 210, 460). -/
def extract_month (m : Metadata) : Value :=
  if pyLen (pyIdx0 (issued_date_parts m)) > 1 then pyIdx1 (pyIdx0 (issued_date_parts m))
  else Value.none

/-- `get_metadata_value` of `create_bibtex_string` (lines 213-220): resolve
the flat key with default `""`, unwrap a list to its first element,
HTML-unescape, then escape `&` for BibTeX. -/
def bibtex_value (m : Metadata) (key : String) : String :=
  let value := dget m key (.str "")
  let value := match value with
               | .list [] => Value.str ""
               | .list (x :: _) => x
               | v => v
  pyReplace (html_unescape (pyStr value)) "&" "\\&"

/-- `get_metadata_value` of `fill_template` (lines 451-456): as
`bibtex_value` but without the `&` escaping. -/
def md_value (m : Metadata) (key : String) : String :=
  let value := dget m key (.str "")
  let value := match value with
               | .list [] => Value.str ""
               | .list (x :: _) => x
               | v => v
  html_unescape (pyStr value)

/-- The conference row of `type_fields` (lines 22-33). -/
def conference_fields : List (String × String) :=
  [("booktitle", "container-title"),
   ("month", "issued.date-parts"),
   ("volume", "volume"),
   ("number", "issue"),
   ("pages", "page"),
   ("series", "collection-title"),
   ("editor", "editor"),
   ("publisher", "publisher"),
   ("address", "publisher-location"),
   ("organization", "event.name")]

/-- The journal row of `type_fields` (lines 34-40). -/
def journal_fields : List (String × String) :=
  [("journal", "container-title"),
   ("volume", "volume"),
   ("number", "issue"),
   ("pages", "page"),
   ("issn", "ISSN")]

/-- The book row of `type_fields` (lines 41-50). -/
def book_fields : List (String × String) :=
  [("booktitle", "title"),
   ("publisher", "publisher"),
   ("address", "publisher-location"),
   ("isbn", "ISBN"),
   ("edition", "edition"),
   ("editor", "editor"),
   ("pages", "page"),
   ("series", "container-title")]

/-- The chapter row of `type_fields` (lines 51-61). -/
def chapter_fields : List (String × String) :=
  [("booktitle", "container-title"),
   ("publisher", "publisher"),
   ("address", "publisher-location"),
   ("pages", "page"),
   ("editor", "editor"),
   ("isbn", "ISBN"),
   ("series", "collection-title"),
   ("edition", "edition"),
   ("chapter", "chapter")]

/-- `type_fields` (lines 21-62). -/
def type_fields : List (String × List (String × String)) :=
  [("conference", conference_fields),
   ("journal", journal_fields),
   ("book", book_fields),
   ("chapter", chapter_fields)]

/-- The common BibTeX fields (lines 223-229); `year or ""` renders a falsy
year as the empty string. -/
def bibtex_common_fields (m : Metadata) : List (String × String) :=
  [("author", author_entries m),
   ("title", bibtex_value m "title"),
   ("year", if (extract_year m).isFalsy then "" else pyStr (extract_year m)),
   ("doi", pyStr (dget m "DOI" (.str ""))),
   ("type", pyStr (dget m "type" (.str "")))]

/-- A kind table projected through `bibtex_value` (lines 235, 240, 246,
254). -/
def mappedFields (m : Metadata) (tbl : List (String × String)) :
    List (String × String) :=
  tbl.map (fun fv => (fv.1, bibtex_value m fv.2))

/-- `metadata.get("type", "").lower().replace(" ", "")` (line 232); a
non-string type value would raise in Python. -/
def bibtex_pub_type (m : Metadata) : String :=
  pyReplace (pyLower (getStrD m "type")) " " ""

/-- `isinstance(metadata.get(k), list)`. -/
def isListField (m : Metadata) (k : String) : Bool :=
  match dget m k Value.none with
  | .list _ => true
  | _ => false

/-- `metadata.get(k, [""])[0]`. -/
def firstOfListField (m : Metadata) (k : String) : Value :=
  pyIdx0 (dget m k (.list [.str ""]))

/-- The entry-type and field selection of `create_bibtex_string` (lines
231-262): substring tests on the lowercased, space-stripped type label. -/
def bibtex_branch (m : Metadata) : String × List (String × String) :=
  let pt := bibtex_pub_type m
  let common := bibtex_common_fields m
  if pyContains pt "conference" then
    let fields := common ++ mappedFields m conference_fields
    let fields := if editor_entries m ≠ "" then
                    setAssoc fields "editor" (editor_entries m)
                  else fields
    ("inproceedings", fields)
  else if pyContains pt "journal" then
    let fields := common ++ mappedFields m journal_fields
    let fields := if isListField m "ISSN" then
                    setAssoc fields "issn" (pyStr (firstOfListField m "ISSN"))
                  else fields
    ("article", fields)
  else if pyContains pt "book" && !pyContains pt "chapter" then
    let fields := common ++ mappedFields m book_fields
    let fields := if isListField m "ISBN" then
                    setAssoc fields "isbn" (pyStr (firstOfListField m "ISBN"))
                  else fields
    let fields := if editor_entries m ≠ "" then
                    setAssoc fields "editor" (editor_entries m)
                  else fields
    ("book", fields)
  else if pyContains pt "chapter" then
    let fields := common ++ mappedFields m chapter_fields
    let fields := if isListField m "ISBN" then
                    setAssoc fields "isbn" (pyStr (firstOfListField m "ISBN"))
                  else fields
    let fields := if editor_entries m ≠ "" then
                    setAssoc fields "editor" (editor_entries m)
                  else fields
    ("inbook", fields)
  else ("misc", common)

/-- The BibTeX entry-type label (first component of `bibtex_branch`). -/
def bibtex_entry_type (m : Metadata) : String := (bibtex_branch m).1

/-- The page-range rewrite for BibTeX (lines 264-268): when no `--` is
present yet, each `-` becomes `--`. -/
def bibtexPageFix (p : String) : String :=
  if pyContains p "--" then p else pyReplace p "-" "--"

/-- The final BibTeX field dict: the selected fields with the page-range
rewrite applied (lines 264-268). -/
def bibtex_fields (m : Metadata) : List (String × String) :=
  let fields := (bibtex_branch m).2
  match assocFind fields "pages" with
  | some v => setAssoc fields "pages" (bibtexPageFix v)
  | Option.none => fields

/-- Assembling the BibTeX text (lines 270-275): the at-sign, the entry
type, an opening brace and the alias, then one tab-indented field=value
line per field, with trailing comma/newline characters stripped and a
closing brace. -/
def render_bibtex (entry_type aliasKey : String)
    (fields : List (String × String)) : String :=
  let body := String.join (fields.map
    (fun kv => "\t" ++ kv.1 ++ "=\x7b" ++ kv.2 ++ "\x7d,\n"))
  pyRstripSet ("@" ++ entry_type ++ "\x7b" ++ aliasKey ++ ",\n" ++ body)
    [',', '\n'] ++ "\n\x7d"

/-- `create_bibtex_string` (lines 160-275). -/
def create_bibtex_string (m : Metadata) (aliasKey : String) : String :=
  render_bibtex (bibtex_entry_type m) aliasKey (bibtex_fields m)

/-- The publication-type classification of `get_metadata_from_doi` (lines
79-94): the derived kind token and the metadata with its human-readable
type label rewritten. -/
def classify (m : Metadata) : String × Metadata :=
  let ct := pyLower (getStrD m "container-title")
  if typeIs m "proceedings-article" || pyContains ct "conference" ||
      pyContains ct "proceedings" then
    ("conference", setMeta m "type" (.str "Conference Proceedings"))
  else if typeIs m "book-chapter" then
    ("chapter", setMeta m "type" (.str "Book Chapter"))
  else if typeIs m "book" then
    ("book", setMeta m "type" (.str "Book"))
  else if typeIs m "journal-article" then
    ("journal", setMeta m "type" (.str "Journal Article"))
  else ("Misc", m)

/-- `check_required_fields` (lines 676-696): for a kind with a declared
table, the declared field names whose flatly-looked-up source value is
falsy, in declared order (the warning print is a side effect carrying the
same list; the function never raises). -/
def check_required_fields (m : Metadata) (pub_type : String) : List String :=
  match (type_fields.find? (fun p => p.1 = pub_type)).map (fun p => p.2) with
  | some tbl =>
    (tbl.filter (fun fv => (dget m fv.2 Value.none).isFalsy)).map (fun fv => fv.1)
  | Option.none => []

/-- The alias built inside `fill_template` (lines 481-483):
the f-string of first author and year; an absent year is `None` and renders as the
four characters `None`. -/
def fill_alias (m : Metadata) : String :=
  get_first_valid_author (effective_authors m) ++ pyStr (extract_year m)

/-- A `  - "<name>"` bullet line per person (lines 488, 499). -/
def bullet_list (ps : List Value) : String :=
  String.join (ps.map (fun a => "  - \"" ++ (clean_author_name a).getD "None" ++ "\"\n"))

/-- `author_list` (lines 488-489): bullet list over the effective authors,
prefixed with a newline when nonempty, else the literal fallback. -/
def author_list_str (m : Metadata) : String :=
  let l := bullet_list (effective_authors m)
  if l ≠ "" then "\n" ++ l else "No authors found"

/-- `editor_list` (lines 492-500): rebuilt from `metadata.get("editor",
[])` even when the editors were already used as authors. -/
def editor_list_str (m : Metadata) : String :=
  let l := bullet_list (valid_people (asList (dget m "editor" (.list []))))
  if l ≠ "" then "\n" ++ l else ""

/-- The common placeholders of `fill_template` (lines 503-513);
`today` is the `datetime.today().strftime("%Y-%m-%d")` string. -/
def base_placeholders (m : Metadata) (pdf_filename : Option String)
    (pdf_output_dir : String) (today : String) : List (String × String) :=
  [("alias", fill_alias m),
   ("imported_date", today),
   ("status", if pdf_filename.isSome then "Imported" else "NoPDF"),
   ("author_list", pyRstripWs (author_list_str m)),
   ("title", md_value m "title"),
   ("year", if (extract_year m).isFalsy then "" else pyStr (extract_year m)),
   ("doi", if (dget m "DOI" (.str "")).isFalsy then ""
           else pyStr (dget m "DOI" (.str ""))),
   ("pdf_link", match pdf_filename with
                | some f => pdf_output_dir ++ f
                | Option.none => "PDF not available"),
   ("bibtex", create_bibtex_string m (fill_alias m))]

/-- The journal-specific placeholder updates (lines 516-557). -/
def journal_placeholder_updates (ratio : String → String → ℚ) (m : Metadata)
    (sjr_data : Option (List SjrRow)) : List (String × String) :=
  let journal_name := md_value m "container-title"
  let u5 : List (String × String) :=
    [("journal", journal_name),
     ("volume", md_value m "volume"),
     ("number", md_value m "issue"),
     ("pages", md_value m "page"),
     ("issn", if isListField m "ISSN" then pyStr (firstOfListField m "ISSN")
              else pyStr (dget m "ISSN" (.str "")))]
  match find_journal_metrics ratio journal_name sjr_data with
  | some jm =>
    let areas_markdown :=
      if jm.areas.isEmpty then "No areas found"
      else "\n" ++ pyJoinSep "\n"
        (jm.areas.map (fun a => "  - \"" ++ a ++ "\""))
    u5 ++ [("sjr_quartile", jm.quartile),
           ("h_index", pyReplace jm.hIndex "," "."),
           ("citations_per_doc", pyReplace jm.citationsPerDoc "," "."),
           ("sjr_publisher", jm.publisher),
           ("sjr_areas", areas_markdown),
           ("sjr_year", "2024")]
  | Option.none =>
    u5 ++ [("sjr_quartile", "Not found in SJR"),
           ("h_index", "Not found in SJR"),
           ("citations_per_doc", "Not found in SJR"),
           ("sjr_publisher", "Not found in SJR"),
           ("sjr_areas", "Not found in SJR"),
           ("sjr_year", "Not found in SJR")]

/-- The Conference Proceedings placeholder updates (lines 560-572); the
document-side pages value rewrites `--` back to `-`. -/
def conference_placeholder_updates (m : Metadata) : List (String × String) :=
  [("booktitle", md_value m "container-title"),
   ("month", if (extract_month m).isFalsy then "" else pyStr (extract_month m)),
   ("volume", md_value m "volume"),
   ("number", md_value m "issue"),
   ("pages", pyReplace (md_value m "page") "--" "-"),
   ("series", md_value m "collection-title"),
   ("editor_list", pyRstripWs (editor_list_str m)),
   ("publisher", md_value m "publisher"),
   ("address", md_value m "publisher-location"),
   ("organization", md_value m "event.name")]

/-- The Book placeholder updates (lines 573-583). -/
def book_placeholder_updates (m : Metadata) : List (String × String) :=
  [("booktitle", md_value m "title"),
   ("publisher", md_value m "publisher"),
   ("address", md_value m "publisher-location"),
   ("isbn", if (firstOfListField m "ISBN").isFalsy then ""
            else pyStr (firstOfListField m "ISBN")),
   ("edition", md_value m "edition"),
   ("editor_list", pyRstripWs (editor_list_str m)),
   ("pages", pyReplace (md_value m "page") "--" "-"),
   ("series", md_value m "container-title")]

/-- The Book Chapter placeholder updates (lines 584-595). -/
def chapter_placeholder_updates (m : Metadata) : List (String × String) :=
  [("booktitle", md_value m "container-title"),
   ("publisher", md_value m "publisher"),
   ("address", md_value m "publisher-location"),
   ("pages", pyReplace (md_value m "page") "--" "-"),
   ("editor_list", pyRstripWs (editor_list_str m)),
   ("isbn", if (firstOfListField m "ISBN").isFalsy then ""
            else pyStr (firstOfListField m "ISBN")),
   ("series", md_value m "collection-title"),
   ("edition", md_value m "edition"),
   ("chapter", md_value m "chapter")]

/-- The conditional placeholder updates of `fill_template` (lines 515-595),
applied to an already-built base dict. Factored out so that the dependence
on the current date is confined to `base_placeholders`. -/
def fill_rest (ratio : String → String → ℚ) (m : Metadata)
    (sjr_data : Option (List SjrRow)) (ps : List (String × String)) :
    List (String × String) :=
  let ps := if typeIs m "Journal Article" then
              updMany ps (journal_placeholder_updates ratio m sjr_data)
            else ps
  if typeIs m "Conference Proceedings" then
    updMany ps (conference_placeholder_updates m)
  else if typeIs m "Book" then updMany ps (book_placeholder_updates m)
  else if typeIs m "Book Chapter" then updMany ps (chapter_placeholder_updates m)
  else ps

/-- The full placeholder dict of `fill_template` (lines 502-595). -/
def fill_placeholders (ratio : String → String → ℚ) (m : Metadata)
    (pdf_filename : Option String) (pdf_output_dir today : String)
    (sjr_data : Option (List SjrRow)) : List (String × String) :=
  fill_rest ratio m sjr_data (base_placeholders m pdf_filename pdf_output_dir today)

/-- `fill_template` (lines 434-601) minus the file read: literal
substitution of each double-braced name token in placeholder order, returning the
content and the alias. -/
def fill_template (ratio : String → String → ℚ) (template_content : String)
    (m : Metadata) (pdf_filename : Option String)
    (pdf_output_dir today : String) (sjr_data : Option (List SjrRow)) :
    String × String :=
  ((fill_placeholders ratio m pdf_filename pdf_output_dir today sjr_data).foldl
    (fun c kv => pyReplace c ("\x7b\x7b" ++ kv.1 ++ "\x7d\x7d") kv.2)
    template_content,
   fill_alias m)

/-! ### Concrete records used by witnesses and counterexamples -/

/-- The always-zero similarity function (used where the similarity value is
irrelevant or must fail the threshold). -/
def ratioZero : String → String → ℚ := fun _ _ => 0

/-- The always-one similarity function (used where a row must clear the
threshold). -/
def ratioOne : String → String → ℚ := fun _ _ => 1

/-- A one-row ranking table entry. -/
def rowX : SjrRow :=
  { Title := "x", quartile := "Q1", hIndex := "10", citationsPerDoc := "1",
    publisher := "P", areas := some "CS; Math" }

/-- A journal record with family name Smith and year 2023. -/
def mSmith : Metadata :=
  [("author", .list [.dict [("family", .str "Smith")]]),
   ("issued", .dict [("date-parts", .list [.list [.int 2023]])])]

/-- The Smith record without any `issued` date. -/
def mNoYear : Metadata := [("author", .list [.dict [("family", .str "Smith")]])]

/-- A record whose only author is valid solely by a given name. -/
def mGivenOnly : Metadata :=
  [("author", .list [.dict [("given", .str "John")]])]

/-- A Journal Article whose pages already carry a double hyphen. -/
def mJournalPages : Metadata :=
  [("type", .str "Journal Article"), ("page", .str "12--34")]

/-- A Journal Article with a single-hyphen page range and no ISSN. -/
def mJournalNoIssn : Metadata :=
  [("type", .str "Journal Article"), ("title", .str "T"),
   ("page", .str "12-34")]

/-- A Book with no authors and one valid editor. -/
def mBookEditor : Metadata :=
  [("type", .str "Book"),
   ("editor", .list [.dict [("given", .str "Ada"), ("family", .str "Lovelace")]]),
   ("issued", .dict [("date-parts", .list [.list [.int 2020]])])]

/-- A record whose raw type token is classified Misc but contains the
substring `journal`. -/
def mJournalIssue : Metadata := [("type", .str "journal-issue")]

/-- A record whose only author has a whitespace-only family name. -/
def mWsFamily : Metadata :=
  [("author", .list [.dict [("given", .str "John"), ("family", .str " ")]])]

/-- A Conference Proceedings record with its date and event data stored
only under the nested `issued`/`event` keys. -/
def mConfNested : Metadata :=
  [("type", .str "Conference Proceedings"),
   ("issued", .dict [("date-parts", .list [.list [.int 2021, .int 5]])]),
   ("event", .dict [("name", .str "CHI")])]

/-- The citation key as claim C3 words it: the family name of the first
valid person (bare strings contribute their last whitespace token),
underscored;
`"Unknown"` when no valid person exists; concatenated with the year, where
an absent year renders as the empty string. Stated only for comparison
with `fill_alias`, which is translated from the source. -/
def citation_key_claim (m : Metadata) : String :=
  let surname :=
    match (effective_authors m).head? with
    | some (.dict d) => pyReplace (pyTrim (getStrD d "family")) " " "_"
    | some (.str s) => pyReplace ((pySplitWs (pyTrim s)).getLastD "") " " "_"
    | _ => "Unknown"
  let yr := match extract_year m with
            | Value.none => ""
            | v => pyStr v
  surname ++ yr

/-- The per-person surname extraction that `get_first_valid_author`
searches for: the nonempty trimmed family name of a structured person run
through `clean_lastname_for_alias`, or the last whitespace token of a
bare string; persons that offer neither (in particular persons valid only
by a given name) yield nothing. -/
def usableName : Value → Option String
  | .dict d =>
    let family := pyTrim (getStrD d "family")
    if family ≠ "" then some (clean_lastname_for_alias family) else Option.none
  | .str s =>
    let name := pyTrim s
    if name ≠ "" then
      match pySplitWs name with
      | [] => Option.none
      | p :: ps => some (clean_lastname_for_alias ((p :: ps).getLast (by simp)))
    else Option.none
  | _ => Option.none

/-- A small journal template exercising the pages, title and issn
placeholders. -/
def tmplIssn : String :=
  "\x7b\x7bpages\x7d\x7d|\x7b\x7btitle\x7d\x7d|\x7b\x7bissn\x7d\x7d"

/-- Two placeholder dicts of the same shape whose entries agree except
possibly at the key `j`. -/
def AgreeExcept (j : String) :
    List (String × String) → List (String × String) → Prop
  | [], [] => True
  | p :: l₁, q :: l₂ => p.1 = q.1 ∧ (p.1 ≠ j → p = q) ∧ AgreeExcept j l₁ l₂
  | _, _ => False

/-! ### Helper lemmas -/

/-- From a state whose rows all miss the threshold, the fuzzy loop keeps
its accumulator. -/
lemma fuzzy_go_no_qualifier (rr : SjrRow → ℚ) (l : List SjrRow)
    (h : ∀ r ∈ l, rr r ≤ 9/10) (b : ℚ) (best : Option SjrRow) :
    fuzzy_go rr l b best = best := by
  induction l generalizing b best with
  | nil => rfl
  | cons r rest ih =>
    have hr : rr r ≤ 9/10 := h r (by simp)
    simp only [fuzzy_go]
    rw [if_neg]
    · exact ih (fun x hx => h x (by simp [hx])) b best
    · rintro ⟨h1, _⟩
      exact absurd h1 (not_lt.mpr hr)

/-- Characterisation of a successful fuzzy-loop run: either the incoming
best survives because nothing later qualifies and beats it, or the
returned row occurs in the remaining rows, clears the threshold and the
incoming bound, strictly beats everything before it, and is not beaten by
anything after it. -/
lemma fuzzy_go_some (rr : SjrRow → ℚ) :
    ∀ (l : List SjrRow) (b : ℚ) (m0 : Option SjrRow) (row : SjrRow),
    fuzzy_go rr l b m0 = some row →
    (m0 = some row ∧ ∀ r ∈ l, rr r ≤ 9/10 ∨ rr r ≤ b) ∨
    (∃ l₁ l₂, l = l₁ ++ row :: l₂ ∧ rr row > 9/10 ∧ rr row > b ∧
      (∀ r ∈ l₁, rr r < rr row ∨ rr r ≤ b) ∧
      (∀ r ∈ l₂, rr r ≤ 9/10 ∨ rr r ≤ rr row)) := by
  intro l
  induction l with
  | nil =>
    intro b m0 row h
    exact Or.inl ⟨h, by simp⟩
  | cons r₀ rest ih =>
    intro b m0 row h
    simp only [fuzzy_go] at h
    by_cases hc : rr r₀ > 9/10 ∧ rr r₀ > b
    · rw [if_pos hc] at h
      rcases ih (rr r₀) (some r₀) row h with ⟨heq, hall⟩ | ⟨l₁, l₂, hsp, h91, hgt, hl₁, hl₂⟩
      · rcases Option.some.injEq .. ▸ heq with rfl
        refine Or.inr ⟨[], rest, by simp, ?_, hc.2, by simp, ?_⟩
        · injection heq with he
          exact he ▸ hc.1
        · intro r hr
          rcases hall r hr with h1 | h2
          · exact Or.inl h1
          · injection heq with he
            exact Or.inr (he ▸ h2)
      · refine Or.inr ⟨r₀ :: l₁, l₂, by simp [hsp], h91, lt_trans hc.2 hgt, ?_, hl₂⟩
        intro r hr
        rcases List.mem_cons.mp hr with rfl | hr
        · exact Or.inl hgt
        · rcases hl₁ r hr with h1 | h2
          · exact Or.inl h1
          · exact Or.inl (lt_of_le_of_lt h2 hgt)
    · rw [if_neg hc] at h
      have hnc : rr r₀ ≤ 9/10 ∨ rr r₀ ≤ b := by
        rcases not_and_or.mp hc with h1 | h2
        · exact Or.inl (not_lt.mp h1)
        · exact Or.inr (not_lt.mp h2)
      rcases ih b m0 row h with ⟨heq, hall⟩ | ⟨l₁, l₂, hsp, h91, hgt, hl₁, hl₂⟩
      · refine Or.inl ⟨heq, ?_⟩
        intro r hr
        rcases List.mem_cons.mp hr with rfl | hr
        · exact hnc
        · exact hall r hr
      · refine Or.inr ⟨r₀ :: l₁, l₂, by simp [hsp], h91, hgt, ?_, hl₂⟩
        intro r hr
        rcases List.mem_cons.mp hr with rfl | hr
        · rcases hnc with h1 | h2
          · exact Or.inl (lt_of_le_of_lt h1 h91)
          · exact Or.inr h2
        · exact hl₁ r hr

/-- Once the loop holds a best match, it returns a match whatever the
remaining rows are. -/
lemma fuzzy_go_isSome_of_some (rr : SjrRow → ℚ) :
    ∀ (l : List SjrRow) (b : ℚ) (row : SjrRow),
    ∃ row', fuzzy_go rr l b (some row) = some row' := by
  intro l
  induction l with
  | nil =>
    intro b row
    exact ⟨row, rfl⟩
  | cons r₀ rest ih =>
    intro b row
    simp only [fuzzy_go]
    by_cases hc : rr r₀ > 9/10 ∧ rr r₀ > b
    · rw [if_pos hc]
      exact ih (rr r₀) r₀
    · rw [if_neg hc]
      exact ih b row

/-- A row clearing both the threshold and the running bound forces the
loop to return a match. -/
lemma fuzzy_go_isSome_of_qualifier (rr : SjrRow → ℚ) :
    ∀ (l : List SjrRow) (b : ℚ) (best : Option SjrRow),
    (∃ r ∈ l, rr r > 9/10 ∧ rr r > b) →
    ∃ row', fuzzy_go rr l b best = some row' := by
  intro l
  induction l with
  | nil =>
    intro b best h
    rcases h with ⟨r, hr, _⟩
    exact absurd hr (List.not_mem_nil r)
  | cons r₀ rest ih =>
    intro b best h
    simp only [fuzzy_go]
    by_cases hc : rr r₀ > 9/10 ∧ rr r₀ > b
    · rw [if_pos hc]
      exact fuzzy_go_isSome_of_some rr rest (rr r₀) r₀
    · rw [if_neg hc]
      rcases h with ⟨r, hr, hq⟩
      rcases List.mem_cons.mp hr with rfl | hr
      · exact absurd hq hc
      · exact ih b best ⟨r, hr, hq⟩

/-! ### Claims -/

/-- C1: for every query and ranking table (and any similarity function),
the fuzzy fallback never returns a row whose ratio against the normalized
query is ≤ 9/10; a returned row has the maximal ratio over the whole
table and strictly beats every earlier row (so among ties the first row in
encounter order wins); when no row exceeds the threshold, no match is
reported; and conversely, whenever at least one row exceeds the threshold
a match IS returned (which, by the first part, is the first maximal
qualifying row). -/
theorem C1_fuzzy_fallback_threshold_and_tiebreak
    (ratio : String → String → ℚ) (q : String) (rows : List SjrRow) :
    (∀ row, fuzzy_best ratio q rows = some row →
      ratio (normalize_journal_name q) (normalize_journal_name row.Title) > 9/10 ∧
      (∀ r ∈ rows,
        ratio (normalize_journal_name q) (normalize_journal_name r.Title) ≤
          ratio (normalize_journal_name q) (normalize_journal_name row.Title)) ∧
      (∃ l₁ l₂, rows = l₁ ++ row :: l₂ ∧
        ∀ r ∈ l₁,
          ratio (normalize_journal_name q) (normalize_journal_name r.Title) <
            ratio (normalize_journal_name q) (normalize_journal_name row.Title))) ∧
    ((∀ r ∈ rows,
        ratio (normalize_journal_name q) (normalize_journal_name r.Title) ≤ 9/10) →
      fuzzy_best ratio q rows = Option.none) ∧
    ((∃ r ∈ rows,
        ratio (normalize_journal_name q) (normalize_journal_name r.Title) > 9/10) →
      ∃ row, fuzzy_best ratio q rows = some row) := by
  set rr : SjrRow → ℚ := fun row =>
    ratio (normalize_journal_name q) (normalize_journal_name row.Title) with hrr
  refine ⟨?_, ?_, ?_⟩
  · intro row h
    rcases fuzzy_go_some rr rows 0 Option.none row h with ⟨heq, _⟩ | ⟨l₁, l₂, hsp, h91, _, hl₁, hl₂⟩
    · exact absurd heq (by simp)
    · have hth : rr row > 9/10 := h91
      have hl₁' : ∀ r ∈ l₁, rr r < rr row := by
        intro r hr
        rcases hl₁ r hr with h1 | h2
        · exact h1
        · calc rr r ≤ 0 := h2
               _ < 9/10 := by norm_num
               _ < rr row := hth
      refine ⟨hth, ?_, l₁, l₂, hsp, hl₁'⟩
      intro r hr
      rw [hsp] at hr
      rcases List.mem_append.mp hr with hr | hr
      · exact le_of_lt (hl₁' r hr)
      · rcases List.mem_cons.mp hr with rfl | hr
        · exact le_refl _
        · rcases hl₂ r hr with h1 | h2
          · exact le_of_lt (lt_of_le_of_lt h1 hth)
          · exact h2
  · intro hall
    exact fuzzy_go_no_qualifier rr rows hall 0 Option.none
  · rintro ⟨r, hr, hq⟩
    exact fuzzy_go_isSome_of_qualifier rr rows 0 Option.none
      ⟨r, hr, hq, lt_trans (by norm_num) hq⟩

/-- Witness for C1: with the always-one similarity function the single
table row qualifies and the fuzzy fallback returns a match, while with the
always-zero similarity function no row qualifies and it reports no match. -/
theorem C1_fuzzy_fallback_threshold_and_tiebreak_witness :
    (∃ row, fuzzy_best ratioOne "x" [rowX] = some row) ∧
    fuzzy_best ratioZero "zz" [rowX] = Option.none :=
  ⟨(C1_fuzzy_fallback_threshold_and_tiebreak ratioOne "x" [rowX]).2.2
      ⟨rowX, by simp, by norm_num [ratioOne]⟩,
   (C1_fuzzy_fallback_threshold_and_tiebreak ratioZero "zz" [rowX]).2.1
      (fun r _ => by norm_num [ratioZero])⟩

/-- C2 counterexample: the source normalization removes every occurrence
of the substring `"the "`, not only a leading one, so it differs from the
normalization described by the claim already on `"Journal of the ACM"`
(source: `"journal of acm"`; claim: `"journal of the acm"`). -/
theorem C2_normalization_counterexample :
    normalize_journal_name "Journal of the ACM" ≠
      normalize_journal_name_claim "Journal of the ACM" := by decide

/-- C2 (amended): normalization lowercases, rewrites `&` forms to `and`,
removes EVERY leftmost non-overlapping occurrence of `"the "` (not only a
leading one), keeps only alphanumerics and spaces, and trims; names equal
after this normalization receive the same exact-match result on every
table, regardless of casing, `&`/`and` spelling, or a leading (or inner)
`"The "`. -/
theorem C2_normalization_and_exact_match :
    (∀ n₁ n₂ rows, normalize_journal_name n₁ = normalize_journal_name n₂ →
      exact_match_stage n₁ rows = exact_match_stage n₂ rows) ∧
    normalize_journal_name "The Journal of the ACM" = "journal of acm" ∧
    normalize_journal_name "A & B" = normalize_journal_name "a and b" ∧
    normalize_journal_name "The Lancet" = normalize_journal_name "LANCET" := by
  refine ⟨?_, by decide, by decide, by decide⟩
  intro n₁ n₂ rows h
  simp only [exact_match_stage, h]

/-- Witness for C2: two spellings of the same journal name normalize
equally, hence receive the same exact-match result on a concrete table. -/
theorem C2_normalization_and_exact_match_witness :
    exact_match_stage "IEEE ACCESS" [rowX] = exact_match_stage "Ieee Access" [rowX] :=
  C2_normalization_and_exact_match.1 "IEEE ACCESS" "Ieee Access" [rowX] (by decide)

/-- `get_first_valid_author` returns the first extractable surname in the
list, and the literal `"Unknown"` when no entry offers one. -/
lemma get_first_valid_author_eq_findSome (ps : List Value) :
    get_first_valid_author ps = (ps.findSome? usableName).getD "Unknown" := by
  induction ps with
  | nil => rfl
  | cons a rest ih =>
    cases a with
    | dict d =>
      simp only [get_first_valid_author, usableName, List.findSome?_cons]
      by_cases hf : pyTrim (getStrD d "family") ≠ ""
      · simp only [if_pos hf]
        rfl
      · simp only [if_neg hf]
        exact ih
    | str s =>
      simp only [get_first_valid_author, usableName, List.findSome?_cons]
      by_cases hn : pyTrim s ≠ ""
      · simp only [if_pos hn]
        cases hsp : pySplitWs (pyTrim s) with
        | nil => exact ih
        | cons p pr =>
          simp only [List.getLast]
          rfl
      · simp only [if_neg hn]
        exact ih
    | none => exact ih
    | bool b => exact ih
    | int n => exact ih
    | list xs => exact ih

/-- C3 counterexample: on a record with author family `"Smith"` and no
year, the source key is `"SmithNone"` (the f-string renders the absent
year as `None`), not the year-less `"Smith"` the claim describes. -/
theorem C3_citation_key_counterexample :
    fill_alias mNoYear ≠ citation_key_claim mNoYear := by decide

/-- C3 (amended): the key is the first *extractable* surname — the first
person with a nonempty trimmed family name (structured) or a nonempty
bare string (last whitespace token), skipping persons valid only by a
given name — with internal spaces underscored, or `"Unknown"` when no
such person exists; concatenated with the year, where an absent year
renders as the literal `"None"` (not the empty string). -/
theorem C3_citation_key :
    (∀ ps : List Value,
      get_first_valid_author ps = (ps.findSome? usableName).getD "Unknown") ∧
    pyStr Value.none = "None" ∧
    fill_alias mSmith = "Smith2023" ∧
    fill_alias mNoYear = "SmithNone" ∧
    fill_alias mGivenOnly = "UnknownNone" :=
  ⟨get_first_valid_author_eq_findSome, by decide, by decide, by decide, by decide⟩

/-- In-place update of key `k` does not change `find?` for another key. -/
lemma find?_key_map_update_ne (l : List (String × String)) (k v k' : String)
    (h : k' ≠ k) :
    (l.map (fun p => if p.1 = k then (k, v) else p)).find?
        (fun p => p.1 = k') =
      l.find? (fun p => p.1 = k') := by
  induction l with
  | nil => rfl
  | cons hd tl ih =>
    simp only [List.map_cons, List.find?_cons]
    by_cases hk : hd.1 = k
    · rw [if_pos hk]
      have h1 : decide ((k, v).1 = k') = false := by
        simp only [decide_eq_false_iff_not]
        exact Ne.symm h
      have h2 : decide (hd.1 = k') = false := by
        simp only [decide_eq_false_iff_not]
        rw [hk]
        exact Ne.symm h
      simp only [h1, h2]
      exact ih
    · rw [if_neg hk]
      cases hd1 : decide (hd.1 = k') with
      | true => simp only [hd1]
      | false =>
        simp only [hd1]
        exact ih

/-- In-place update of a present key `k` makes `find?` at `k` return the
new pair. -/
lemma find?_key_map_update_self (l : List (String × String)) (k v : String)
    (h : l.any (fun p => p.1 = k) = true) :
    (l.map (fun p => if p.1 = k then (k, v) else p)).find?
        (fun p => p.1 = k) = some (k, v) := by
  induction l with
  | nil => simp at h
  | cons hd tl ih =>
    simp only [List.map_cons, List.find?_cons]
    by_cases hk : hd.1 = k
    · rw [if_pos hk]
      simp
    · rw [if_neg hk]
      have h2 : decide (hd.1 = k) = false := by simp [hk]
      simp only [h2]
      apply ih
      simp only [List.any_cons, h2, Bool.false_or] at h
      exact h

/-- Updating key `k` in place leaves lookups of other keys unchanged. -/
lemma assocFind_setAssoc_ne (l : List (String × String)) (k v k' : String)
    (h : k' ≠ k) : assocFind (setAssoc l k v) k' = assocFind l k' := by
  simp only [setAssoc]
  split
  · simp only [assocFind, find?_key_map_update_ne l k v k' h]
  · simp only [assocFind, List.find?_append]
    have h0 : List.find? (fun p => decide (p.1 = k')) [(k, v)] = Option.none := by
      simp [Ne.symm h]
    rw [h0, Option.or_none]

/-- Updating key `k` in place makes `k` look up the new value, provided the
key was present. -/
lemma assocFind_setAssoc_self (l : List (String × String)) (k v : String)
    (h : l.any (fun p => p.1 = k) = true) :
    assocFind (setAssoc l k v) k = some v := by
  simp only [setAssoc, if_pos h, assocFind]
  rw [find?_key_map_update_self l k v h]
  rfl

/-- Setting key `k` on a metadata dict makes it look up the new value. -/
lemma lookupV_setMeta_self (m : Metadata) (k : String) (v : Value) :
    lookupV (setMeta m k v) k = some v := by
  simp only [setMeta]
  split
  · rename_i h
    induction m with
    | nil => simp at h
    | cons hd tl ih =>
      obtain ⟨k₀, v₀⟩ := hd
      simp only [List.map_cons]
      by_cases hk : k₀ = k
      · rw [if_pos hk]
        simp [lookupV]
      · rw [if_neg hk]
        simp only [lookupV, if_neg hk]
        apply ih
        simp only [List.any_cons, Bool.or_eq_true] at h
        rcases h with h1 | h1
        · exact absurd (of_decide_eq_true h1) hk
        · exact h1
  · rename_i h
    induction m with
    | nil => simp [lookupV]
    | cons hd tl ih =>
      obtain ⟨k₀, v₀⟩ := hd
      simp only [List.any_cons, Bool.or_eq_true, decide_eq_true_eq] at h
      push_neg at h
      simp only [List.cons_append, lookupV, if_neg h.1]
      apply ih
      exact h.2

/-- An association-list lookup hit implies the key test succeeds somewhere. -/
lemma any_of_assocFind_some (l : List (String × String)) (k v : String)
    (h : assocFind l k = some v) : l.any (fun p => p.1 = k) = true := by
  simp only [assocFind] at h
  rcases Option.map_eq_some'.mp h with ⟨p, hp, hv⟩
  rcases List.find?_eq_some.mp hp with ⟨hpred, _⟩
  simp only [List.any_eq_true]
  exact ⟨p, List.mem_of_find?_eq_some hp, hpred⟩

/-- Setting a key always makes it look up the new value. -/
lemma assocFind_setAssoc_self' (l : List (String × String)) (k v : String) :
    assocFind (setAssoc l k v) k = some v := by
  by_cases h : l.any (fun p => p.1 = k) = true
  · exact assocFind_setAssoc_self l k v h
  · simp only [setAssoc, if_neg h, assocFind, List.find?_append]
    have h0 : l.find? (fun p => decide (p.1 = k)) = Option.none := by
      rw [List.find?_eq_none]
      intro x hx hpx
      exact h (List.any_eq_true.mpr ⟨x, hx, hpx⟩)
    rw [h0]
    simp

/-- A dict-update run resolves a key to its last binding in the update
list, falling back to the base dict. -/
lemma assocFind_updMany (ps u : List (String × String)) (k : String) :
    assocFind (updMany ps u) k = (assocFind u.reverse k).or (assocFind ps k) := by
  induction u generalizing ps with
  | nil => simp [updMany, assocFind, List.find?]
  | cons q u' ih =>
    simp only [updMany, List.foldl_cons]
    have step := ih (setAssoc ps q.1 q.2)
    simp only [updMany] at step
    rw [step]
    cases hfind : assocFind u'.reverse k with
    | some v =>
      have hthis : assocFind ((q :: u').reverse) k = some v := by
        simp only [List.reverse_cons, assocFind, List.find?_append]
        simp only [assocFind] at hfind
        rcases Option.map_eq_some'.mp hfind with ⟨p, hp, hv⟩
        rw [hp]
        simp [hv]
      rw [hthis]
      rfl
    | none =>
      simp only [assocFind] at hfind
      have hnone : u'.reverse.find? (fun p => decide (p.1 = k)) = Option.none := by
        cases hf : u'.reverse.find? (fun p => decide (p.1 = k)) with
        | none => rfl
        | some p =>
          rw [hf] at hfind
          simp at hfind
      by_cases hqk : q.1 = k
      · have hleft : assocFind (setAssoc ps q.1 q.2) k = some q.2 := by
          rw [hqk]
          exact assocFind_setAssoc_self' ps k q.2
        have hright : assocFind ((q :: u').reverse) k = some q.2 := by
          simp only [List.reverse_cons, assocFind, List.find?_append, hnone]
          simp [hqk]
        rw [hleft, hright]
        rfl
      · have hleft : assocFind (setAssoc ps q.1 q.2) k = assocFind ps k :=
          assocFind_setAssoc_ne ps q.1 q.2 k (fun hk => hqk hk.symm)
        have hright : assocFind ((q :: u').reverse) k = Option.none := by
          simp only [List.reverse_cons, assocFind, List.find?_append, hnone]
          simp [hqk]
        rw [hleft, hright]

/-- In every non-misc branch the selected BibTeX fields resolve `pages`
from the flat `page` key. -/
lemma bibtex_branch_pages (m : Metadata) (h : (bibtex_branch m).1 ≠ "misc") :
    assocFind (bibtex_branch m).2 "pages" = some (bibtex_value m "page") := by
  simp only [bibtex_branch] at h ⊢
  split_ifs at h ⊢ <;> dsimp only at h ⊢ <;>
    first
      | exact absurd rfl h
      | (rw [assocFind_setAssoc_ne _ _ _ _ (by decide),
            assocFind_setAssoc_ne _ _ _ _ (by decide)]
         rfl)
      | (rw [assocFind_setAssoc_ne _ _ _ _ (by decide)]
         rfl)
      | rfl

/-- C4 counterexample: for a Journal Article whose resolved page value is
`"12--34"`, the rendered-document pages placeholder keeps `"12--34"`; the
Journal branch of `fill_template` does not apply the `--` → `-` rewrite
that the claim asserts for every document kind. -/
theorem C4_pages_counterexample :
    assocFind (fill_placeholders ratioZero mJournalPages Option.none "" "2024-01-01"
        Option.none) "pages" ≠
      some (pyReplace (md_value mJournalPages "page") "--" "-") := by decide

/-- C4 (amended): on the BibTeX surface every record that selects a
non-misc entry type gets its `pages` field from the flat `page` key with
the single-to-double-hyphen rewrite (applied only when no `--` is present
yet); on the rendered-document surface the inverse `--` → `-` rewrite is
applied for the Conference Proceedings, Book, and Book Chapter kinds, but
NOT for Journal Article, whose pages placeholder keeps the resolved value
verbatim ("12--34" stays "12--34"). -/
theorem C4_page_range_conventions :
    (∀ m : Metadata, (bibtex_branch m).1 ≠ "misc" →
      assocFind (bibtex_fields m) "pages" =
        some (bibtexPageFix (bibtex_value m "page"))) ∧
    (∀ ratio m pdf dir today sjr,
      dget m "type" Value.none = Value.str "Conference Proceedings" →
      assocFind (fill_placeholders ratio m pdf dir today sjr) "pages" =
        some (pyReplace (md_value m "page") "--" "-")) ∧
    (∀ ratio m pdf dir today sjr,
      dget m "type" Value.none = Value.str "Book" →
      assocFind (fill_placeholders ratio m pdf dir today sjr) "pages" =
        some (pyReplace (md_value m "page") "--" "-")) ∧
    (∀ ratio m pdf dir today sjr,
      dget m "type" Value.none = Value.str "Book Chapter" →
      assocFind (fill_placeholders ratio m pdf dir today sjr) "pages" =
        some (pyReplace (md_value m "page") "--" "-")) ∧
    bibtexPageFix "12-34" = "12--34" ∧
    bibtexPageFix "12--34" = "12--34" ∧
    pyReplace "12--34" "--" "-" = "12-34" ∧
    assocFind (fill_placeholders ratioZero mJournalPages Option.none "" "2024-01-01"
        Option.none) "pages" = some "12--34" := by
  refine ⟨?_, ?_, ?_, ?_, by decide, by decide, by decide, by decide⟩
  · intro m h
    have key := bibtex_branch_pages m h
    simp only [bibtex_fields, key]
    exact assocFind_setAssoc_self _ _ _ (any_of_assocFind_some _ _ _ key)
  · intro ratio m pdf dir today sjr h
    have hJ : typeIs m "Journal Article" = false := by simp [typeIs, h]
    have hC : typeIs m "Conference Proceedings" = true := by simp [typeIs, h]
    simp only [fill_placeholders, fill_rest, hJ, hC]
    simp only [Bool.false_eq_true, if_false, if_true]
    rw [assocFind_updMany]
    rfl
  · intro ratio m pdf dir today sjr h
    have hJ : typeIs m "Journal Article" = false := by simp [typeIs, h]
    have hC : typeIs m "Conference Proceedings" = false := by simp [typeIs, h]
    have hB : typeIs m "Book" = true := by simp [typeIs, h]
    simp only [fill_placeholders, fill_rest, hJ, hC, hB]
    simp only [Bool.false_eq_true, if_false, if_true]
    rw [assocFind_updMany]
    rfl
  · intro ratio m pdf dir today sjr h
    have hJ : typeIs m "Journal Article" = false := by simp [typeIs, h]
    have hC : typeIs m "Conference Proceedings" = false := by simp [typeIs, h]
    have hB : typeIs m "Book" = false := by simp [typeIs, h]
    have hCh : typeIs m "Book Chapter" = true := by simp [typeIs, h]
    simp only [fill_placeholders, fill_rest, hJ, hC, hB, hCh]
    simp only [Bool.false_eq_true, if_false, if_true]
    rw [assocFind_updMany]
    rfl

/-- Witness for C4: the journal-branch BibTeX output of a record with page
`"12-34"` carries the doubled-hyphen pages value, and a concrete Book record gets the
inverse document-side rewrite. -/
theorem C4_page_range_conventions_witness :
    assocFind (bibtex_fields mJournalNoIssn) "pages" =
      some (bibtexPageFix (bibtex_value mJournalNoIssn "page")) ∧
    assocFind (fill_placeholders ratioZero mBookEditor Option.none "" "2024-01-01"
        Option.none) "pages" =
      some (pyReplace (md_value mBookEditor "page") "--" "-") :=
  ⟨C4_page_range_conventions.1 mJournalNoIssn (by decide),
   (C4_page_range_conventions.2.2.1 ratioZero mBookEditor Option.none "" "2024-01-01"
      Option.none) rfl⟩

/-- C5: evaluation at the failing input. For a Book record with no authors
and one valid editor, the alias and the author-list placeholder are indeed
built from the editor, but the editor-list placeholder is NOT empty: the
`editors = []` clearing on line 190 is dead code (line 197 re-fetches
`metadata.get("editor", [])`), so the editor appears again in the editor
list — contradicting the claim, the spec, and the comments in the code
itself (Clear the editors list since we are using them as authors; only
if we have not used them as authors). -/
theorem C5_book_editor_fallback_eval :
    fill_alias mBookEditor = "Lovelace2020" ∧
    assocFind (fill_placeholders ratioZero mBookEditor Option.none "" "2024-01-01"
        Option.none) "author_list" = some "\n  - \"Ada Lovelace\"" ∧
    assocFind (fill_placeholders ratioZero mBookEditor Option.none "" "2024-01-01"
        Option.none) "editor_list" = some "\n  - \"Ada Lovelace\"" ∧
    editor_entries mBookEditor = "Lovelace, Ada" ∧
    assocFind (bibtex_fields mBookEditor) "author" = some "Lovelace, Ada" ∧
    assocFind (bibtex_fields mBookEditor) "editor" = some "Lovelace, Ada" := by
  refine ⟨by decide, by decide, by decide, by decide, by decide, by decide⟩

/-- C6 counterexample: a record whose raw type token is `"journal-issue"`
is classified `Misc`, yet its BibTeX entry type is `article`, not `misc`:
the serializer dispatches on substrings of the type label, not on the
assigned kind. -/
theorem C6_entry_type_counterexample :
    (classify mJournalIssue).1 = "Misc" ∧
    bibtex_entry_type (classify mJournalIssue).2 = "article" ∧
    ("article" : String) ≠ "misc" := by
  refine ⟨by decide, by decide, by decide⟩

/-- C6 (amended): the serializer selects the entry type by substring tests
on the lowercased, space-stripped type label. For every record the
classifier assigns one of the four non-Misc kinds, the label it writes
produces the claimed entry type (Conference → inproceedings, Chapter →
inbook, Book → book, Journal → article), and any record whose label
selects the misc branch is serialized with exactly the common fields; but
a Misc-classified record keeps its raw label, and when that label
contains `conference`/`journal`/`book`/`chapter` it is serialized under
the corresponding non-misc entry type instead of `misc`. -/
theorem C6_entry_type_by_kind :
    (∀ m : Metadata, (classify m).1 = "conference" →
      bibtex_entry_type (classify m).2 = "inproceedings") ∧
    (∀ m : Metadata, (classify m).1 = "chapter" →
      bibtex_entry_type (classify m).2 = "inbook") ∧
    (∀ m : Metadata, (classify m).1 = "book" →
      bibtex_entry_type (classify m).2 = "book") ∧
    (∀ m : Metadata, (classify m).1 = "journal" →
      bibtex_entry_type (classify m).2 = "article") ∧
    (∀ m : Metadata, bibtex_entry_type m = "misc" →
      bibtex_fields m = bibtex_common_fields m) := by
  have hlabel : ∀ (m : Metadata) (s : String),
      getStrD (setMeta m "type" (Value.str s)) "type" = s := by
    intro m s
    simp only [getStrD, lookupV_setMeta_self]
  refine ⟨?_, ?_, ?_, ?_, ?_⟩
  · intro m h
    simp only [classify] at h ⊢
    split_ifs at h ⊢
    · simp only [bibtex_entry_type, bibtex_branch, bibtex_pub_type, hlabel]
      rfl
    all_goals simp_all
  · intro m h
    simp only [classify] at h ⊢
    split_ifs at h ⊢
    · simp_all
    · simp only [bibtex_entry_type, bibtex_branch, bibtex_pub_type, hlabel]
      rfl
    all_goals simp_all
  · intro m h
    simp only [classify] at h ⊢
    split_ifs at h ⊢
    · simp_all
    · simp_all
    · simp only [bibtex_entry_type, bibtex_branch, bibtex_pub_type, hlabel]
      rfl
    all_goals simp_all
  · intro m h
    simp only [classify] at h ⊢
    split_ifs at h ⊢
    · simp_all
    · simp_all
    · simp_all
    · simp only [bibtex_entry_type, bibtex_branch, bibtex_pub_type, hlabel]
      rfl
    all_goals simp_all
  · intro m h
    simp only [bibtex_entry_type, bibtex_branch] at h
    simp only [bibtex_fields, bibtex_branch]
    split_ifs at h ⊢ <;>
      first
        | (have hnp : assocFind (bibtex_common_fields m) "pages" = Option.none := rfl
           rw [hnp])
        | simp_all

/-- Witness for C6: a proceedings-article record is classified conference
and serialized `@inproceedings`; a forced-Misc label yields `@misc` with
only the common fields. -/
theorem C6_entry_type_by_kind_witness :
    bibtex_entry_type (classify [("type", Value.str "proceedings-article")]).2 =
      "inproceedings" ∧
    bibtex_fields [("type", Value.str "Misc")] =
      bibtex_common_fields [("type", Value.str "Misc")] :=
  ⟨C6_entry_type_by_kind.1 [("type", Value.str "proceedings-article")] (by decide),
   C6_entry_type_by_kind.2.2.2.2 [("type", Value.str "Misc")] (by decide)⟩

/-- Membership characterisation of `check_required_fields`: a declared
field is reported missing exactly when its flat source lookup is falsy. -/
lemma mem_check_required_fields (m : Metadata) (pt : String)
    (tbl : List (String × String))
    (htbl : (type_fields.find? (fun p => p.1 = pt)).map (fun p => p.2) = some tbl)
    (field : String) :
    field ∈ check_required_fields m pt ↔
      ∃ src, (field, src) ∈ tbl ∧ (dget m src Value.none).isFalsy := by
  simp only [check_required_fields, htbl]
  constructor
  · intro hf
    rcases List.mem_map.mp hf with ⟨fv, hfv, hfst⟩
    rcases List.mem_filter.mp hfv with ⟨hmem, hfalsy⟩
    refine ⟨fv.2, ?_, hfalsy⟩
    have : (field, fv.2) = fv := by
      rw [← hfst]
    rw [this]
    exact hmem
  · rintro ⟨src, hmem, hfalsy⟩
    exact List.mem_map.mpr ⟨(field, src), List.mem_filter.mpr ⟨hmem, hfalsy⟩, rfl⟩

/-- C7: for every record and every kind with a declared field table,
missing-field detection returns exactly the declared citation-field names
whose flat source lookup resolves to a falsy value, in declared order (a
sublist of the declared names); it is a total function (never aborts; the
printed warning carries this same list); and a Journal record without an
`ISSN` lists `issn` yet still renders a complete document. -/
theorem C7_missing_field_detection :
    (∀ (m : Metadata) (pt : String) (tbl : List (String × String)) (field : String),
      (type_fields.find? (fun p => p.1 = pt)).map (fun p => p.2) = some tbl →
      (field ∈ check_required_fields m pt ↔
        ∃ src, (field, src) ∈ tbl ∧ (dget m src Value.none).isFalsy)) ∧
    (∀ (m : Metadata) (pt : String) (tbl : List (String × String)),
      (type_fields.find? (fun p => p.1 = pt)).map (fun p => p.2) = some tbl →
      List.Sublist (check_required_fields m pt) (tbl.map (fun fv => fv.1))) ∧
    (∀ m : Metadata, (dget m "ISSN" Value.none).isFalsy →
      "issn" ∈ check_required_fields m "journal") ∧
    check_required_fields mJournalNoIssn "journal" = ["journal", "volume", "number", "issn"] ∧
    (fill_template ratioZero tmplIssn mJournalNoIssn Option.none "" "2024-01-01"
        Option.none).1 = "12-34|T|" := by
  refine ⟨?_, ?_, ?_, by decide, by decide⟩
  · intro m pt tbl field htbl
    exact mem_check_required_fields m pt tbl htbl field
  · intro m pt tbl htbl
    simp only [check_required_fields, htbl]
    exact List.Sublist.map _ (List.filter_sublist tbl)
  · intro m h
    have htbl : (type_fields.find? (fun p => p.1 = "journal")).map (fun p => p.2) =
        some journal_fields := by decide
    exact (mem_check_required_fields m "journal" journal_fields htbl "issn").mpr
      ⟨"ISSN", by decide, h⟩

/-- Witness for C7: the concrete Journal record without an ISSN reports
`issn` among its missing fields. -/
theorem C7_missing_field_detection_witness :
    "issn" ∈ check_required_fields mJournalNoIssn "journal" :=
  C7_missing_field_detection.2.2.1 mJournalNoIssn (by decide)

/-- `AgreeExcept` is reflexive. -/
lemma agreeExcept_refl (j : String) : ∀ l, AgreeExcept j l l
  | [] => trivial
  | _ :: l => ⟨rfl, fun _ => rfl, agreeExcept_refl j l⟩

/-- Dicts agreeing except at `j` give equal lookups at any other key. -/
lemma AgreeExcept.assocFind_eq {j : String} :
    ∀ {l₁ l₂ : List (String × String)}, AgreeExcept j l₁ l₂ →
    ∀ k, k ≠ j → assocFind l₁ k = assocFind l₂ k := by
  intro l₁
  induction l₁ with
  | nil =>
    intro l₂ h k hk
    cases l₂ with
    | nil => rfl
    | cons q l₂ => exact absurd h (by simp [AgreeExcept])
  | cons p l₁ ih =>
    intro l₂ h k hk
    cases l₂ with
    | nil => exact absurd h (by simp [AgreeExcept])
    | cons q l₂ =>
      obtain ⟨hkey, hpq, hrest⟩ := h
      simp only [assocFind, List.find?_cons]
      by_cases hp : p.1 = k
      · have hq : q.1 = k := hkey.symm.trans hp
        have hpq' : p = q := hpq (by rw [hp]; exact hk)
        have h1 : decide (p.1 = k) = true := decide_eq_true hp
        have h2 : decide (q.1 = k) = true := decide_eq_true hq
        simp only [h1, h2]
        rw [hpq']
      · have hq : ¬ q.1 = k := by rw [← hkey]; exact hp
        have h1 : decide (p.1 = k) = false := decide_eq_false hp
        have h2 : decide (q.1 = k) = false := decide_eq_false hq
        simp only [h1, h2]
        exact ih hrest k hk

/-- Dicts agreeing except at `j` have the same key spines. -/
lemma AgreeExcept.any_eq {j : String} :
    ∀ {l₁ l₂ : List (String × String)}, AgreeExcept j l₁ l₂ →
    ∀ k, (l₁.any (fun p => p.1 = k)) = (l₂.any (fun p => p.1 = k)) := by
  intro l₁
  induction l₁ with
  | nil =>
    intro l₂ h k
    cases l₂ with
    | nil => rfl
    | cons q l₂ => exact absurd h (by simp [AgreeExcept])
  | cons p l₁ ih =>
    intro l₂ h k
    cases l₂ with
    | nil => exact absurd h (by simp [AgreeExcept])
    | cons q l₂ =>
      obtain ⟨hkey, _, hrest⟩ := h
      simp only [List.any_cons, hkey, ih hrest k]

/-- The in-place map update preserves `AgreeExcept`. -/
lemma AgreeExcept.map_update {j : String} (k v : String) :
    ∀ {l₁ l₂ : List (String × String)}, AgreeExcept j l₁ l₂ →
    AgreeExcept j (l₁.map (fun p => if p.1 = k then (k, v) else p))
      (l₂.map (fun p => if p.1 = k then (k, v) else p)) := by
  intro l₁
  induction l₁ with
  | nil =>
    intro l₂ h
    cases l₂ with
    | nil => trivial
    | cons q l₂ => exact absurd h (by simp [AgreeExcept])
  | cons p l₁ ih =>
    intro l₂ h
    cases l₂ with
    | nil => exact absurd h (by simp [AgreeExcept])
    | cons q l₂ =>
      obtain ⟨hkey, hpq, hrest⟩ := h
      simp only [List.map_cons]
      by_cases hp : p.1 = k
      · have hq : q.1 = k := hkey.symm.trans hp
        rw [if_pos hp, if_pos hq]
        exact ⟨rfl, fun _ => rfl, ih hrest⟩
      · have hq : ¬ q.1 = k := by rw [← hkey]; exact hp
        rw [if_neg hp, if_neg hq]
        exact ⟨hkey, hpq, ih hrest⟩

/-- Appending a common tail preserves `AgreeExcept`. -/
lemma AgreeExcept.append_right {j : String} (t : List (String × String)) :
    ∀ {l₁ l₂ : List (String × String)}, AgreeExcept j l₁ l₂ →
    AgreeExcept j (l₁ ++ t) (l₂ ++ t) := by
  intro l₁
  induction l₁ with
  | nil =>
    intro l₂ h
    cases l₂ with
    | nil => exact agreeExcept_refl j t
    | cons q l₂ => exact absurd h (by simp [AgreeExcept])
  | cons p l₁ ih =>
    intro l₂ h
    cases l₂ with
    | nil => exact absurd h (by simp [AgreeExcept])
    | cons q l₂ =>
      obtain ⟨hkey, hpq, hrest⟩ := h
      exact ⟨hkey, hpq, ih hrest⟩

/-- A dict assignment preserves `AgreeExcept`. -/
lemma AgreeExcept.setAssoc {j : String} {l₁ l₂ : List (String × String)}
    (h : AgreeExcept j l₁ l₂) (k v : String) :
    AgreeExcept j (setAssoc l₁ k v) (setAssoc l₂ k v) := by
  simp only [ObsidianTemplater.setAssoc, h.any_eq k]
  split
  · exact AgreeExcept.map_update k v h
  · exact AgreeExcept.append_right [(k, v)] h

/-- A dict-update run preserves `AgreeExcept`. -/
lemma agreeExcept_updMany {j : String} (u : List (String × String)) :
    ∀ {l₁ l₂ : List (String × String)}, AgreeExcept j l₁ l₂ →
    AgreeExcept j (updMany l₁ u) (updMany l₂ u) := by
  induction u with
  | nil =>
    intro l₁ l₂ h
    exact h
  | cons q u' ih =>
    intro l₁ l₂ h
    simp only [ObsidianTemplater.updMany, List.foldl_cons] at *
    exact ih (h.setAssoc q.1 q.2)

/-- The common placeholders built for two different import dates agree
everywhere except at the `imported_date` key. -/
lemma base_placeholders_agree (m : Metadata) (pdf : Option String)
    (dir t₁ t₂ : String) :
    AgreeExcept "imported_date" (base_placeholders m pdf dir t₁)
      (base_placeholders m pdf dir t₂) :=
  ⟨rfl, fun _ => rfl, rfl, fun hj => absurd rfl hj, rfl, fun _ => rfl,
   rfl, fun _ => rfl, rfl, fun _ => rfl, rfl, fun _ => rfl, rfl, fun _ => rfl,
   rfl, fun _ => rfl, rfl, fun _ => rfl, trivial⟩

/-- A conditional dict-update preserves `AgreeExcept`. -/
lemma agreeExcept_ite_updMany {j : String} (b : Bool) (u : List (String × String))
    {l₁ l₂ : List (String × String)} (h : AgreeExcept j l₁ l₂) :
    AgreeExcept j (if b then updMany l₁ u else l₁)
      (if b then updMany l₂ u else l₂) := by
  cases b
  · exact h
  · exact agreeExcept_updMany u h

/-- The type-specific update chain of `fill_template` preserves
`AgreeExcept`. -/
lemma agreeExcept_update_chain {j : String} (bC bB bCh : Bool)
    (cU bU chU : List (String × String)) {l₁ l₂ : List (String × String)}
    (h : AgreeExcept j l₁ l₂) :
    AgreeExcept j
      (if bC then updMany l₁ cU
       else if bB then updMany l₁ bU
       else if bCh then updMany l₁ chU else l₁)
      (if bC then updMany l₂ cU
       else if bB then updMany l₂ bU
       else if bCh then updMany l₂ chU else l₂) := by
  cases bC
  · cases bB
    · cases bCh
      · exact h
      · exact agreeExcept_updMany chU h
    · exact agreeExcept_updMany bU h
  · exact agreeExcept_updMany cU h

/-- The date-independent placeholder updates of `fill_template` preserve
`AgreeExcept`. -/
lemma fill_rest_agree (ratio : String → String → ℚ) (m : Metadata)
    (sjr : Option (List SjrRow)) {j : String} {ps₁ ps₂ : List (String × String)}
    (h : AgreeExcept j ps₁ ps₂) :
    AgreeExcept j (fill_rest ratio m sjr ps₁) (fill_rest ratio m sjr ps₂) := by
  simp only [fill_rest]
  exact agreeExcept_update_chain _ _ _ _ _ _
    (agreeExcept_ite_updMany _ _ h)

/-- C8: rendering is deterministic — the same inputs produce the identical
document and alias; and across two runs with different current dates,
every placeholder other than `imported_date` receives the identical value
(so only the explicit imported-date placeholder depends on the clock). -/
theorem C8_two_run_determinism :
    (∀ (ratio : String → String → ℚ) (tmpl : String) (m : Metadata)
        (pdf : Option String) (dir today : String) (sjr : Option (List SjrRow)),
      fill_template ratio tmpl m pdf dir today sjr =
        fill_template ratio tmpl m pdf dir today sjr ∧
      create_bibtex_string m (fill_alias m) = create_bibtex_string m (fill_alias m)) ∧
    (∀ (ratio : String → String → ℚ) (m : Metadata) (pdf : Option String)
        (dir t₁ t₂ : String) (sjr : Option (List SjrRow)) (k : String),
      k ≠ "imported_date" →
      assocFind (fill_placeholders ratio m pdf dir t₁ sjr) k =
        assocFind (fill_placeholders ratio m pdf dir t₂ sjr) k) := by
  refine ⟨fun _ _ _ _ _ _ _ => ⟨rfl, rfl⟩, ?_⟩
  intro ratio m pdf dir t₁ t₂ sjr k hk
  simp only [fill_placeholders]
  exact (fill_rest_agree ratio m sjr
    (base_placeholders_agree m pdf dir t₁ t₂)).assocFind_eq k hk

/-- Witness for C8: on a concrete Book record, the alias placeholder is
identical across two runs dated years apart. -/
theorem C8_two_run_determinism_witness :
    assocFind (fill_placeholders ratioZero mBookEditor Option.none "" "2024-01-01"
        Option.none) "alias" =
      assocFind (fill_placeholders ratioZero mBookEditor Option.none "" "2030-12-31"
        Option.none) "alias" :=
  C8_two_run_determinism.2 ratioZero mBookEditor Option.none "" "2024-01-01"
    "2030-12-31" Option.none "alias" (by decide)

/-- C9 counterexample: a person valid solely by a given name whose family
value is whitespace-only (truthy but blank) renders as `", John"`, not
`"Unknown, John"`: `clean_lastname_for_alias` maps only the empty string
to `Unknown`, and `" "` is not empty. -/
theorem C9_unknown_surname_counterexample :
    (clean_author_name
        (Value.dict [("given", Value.str "John"), ("family", Value.str " ")])).isSome =
      true ∧
    assocFind (bibtex_fields mWsFamily) "author" = some ", John" ∧
    assocFind (bibtex_fields mWsFamily) "author" ≠ some "Unknown, John" :=
  ⟨by decide, by decide, by decide⟩

/-- C9 (amended): the surname slot of a BibTeX person entry falls back to
the literal `Unknown` exactly when the raw family value is absent or the
empty string (Python-falsy); a person valid solely by a given name with
family absent or empty renders as `"Unknown, <given>"`, while a
whitespace-only family is truthy and renders as an empty surname slot
(`", <given>"`). -/
theorem C9_unknown_surname_fallback :
    clean_lastname_for_alias "" = "Unknown" ∧
    (∀ g : String,
      author_entry (Value.dict [("given", Value.str g)]) = "Unknown, " ++ pyTrim g ∧
      author_entry (Value.dict [("given", Value.str g), ("family", Value.str "")]) =
        "Unknown, " ++ pyTrim g) ∧
    (∀ g : String, pyTrim g ≠ "" →
      assocFind (bibtex_fields [("author",
          Value.list [Value.dict [("given", Value.str g)]])]) "author" =
        some ("Unknown, " ++ pyTrim g)) ∧
    author_entry (Value.dict [("given", Value.str "John"), ("family", Value.str " ")]) =
      ", John" := by
  refine ⟨by decide, fun g => ⟨rfl, rfl⟩, ?_, by decide⟩
  intro g h
  have hv : (clean_author_name (Value.dict [("given", Value.str g)])).isSome = true := by
    have e1 : pyTrim (getStrD [("given", Value.str g)] "given") = pyTrim g := rfl
    have e2 : pyTrim (getStrD [("given", Value.str g)] "family") = "" := rfl
    simp only [clean_author_name, e1, e2]
    rw [if_pos (Or.inl h)]
    rfl
  have heff : effective_authors
      [("author", Value.list [Value.dict [("given", Value.str g)]])] =
      [Value.dict [("given", Value.str g)]] := by
    simp only [effective_authors, valid_people]
    have e3 : asList (dget [("author", Value.list [Value.dict [("given", Value.str g)]])]
        "author" (Value.list [])) = [Value.dict [("given", Value.str g)]] := rfl
    rw [e3, List.filter_cons, if_pos hv]
    rfl
  have hae : author_entries
      [("author", Value.list [Value.dict [("given", Value.str g)]])] =
      "Unknown, " ++ pyTrim g := by
    simp only [author_entries, heff]
    rfl
  calc assocFind (bibtex_fields
          [("author", Value.list [Value.dict [("given", Value.str g)]])]) "author"
      = assocFind (bibtex_common_fields
          [("author", Value.list [Value.dict [("given", Value.str g)]])]) "author" := rfl
    _ = some (author_entries
          [("author", Value.list [Value.dict [("given", Value.str g)]])]) := rfl
    _ = some ("Unknown, " ++ pyTrim g) := by rw [hae]

/-- Witness for C9: the fallback applied to the concrete given name
`"John"`. -/
theorem C9_unknown_surname_fallback_witness :
    assocFind (bibtex_fields [("author",
        Value.list [Value.dict [("given", Value.str "John")]])]) "author" =
      some ("Unknown, " ++ pyTrim "John") :=
  C9_unknown_surname_fallback.2.2.1 "John" (by decide)

/-- C10: for every Conference record whose date and event data are stored
only under nested keys (no flat key literally spelled `issued.date-parts`
or `event.name`), missing-field detection looks those dotted paths up as
flat keys and therefore always reports `month` and `organization` as
missing, and the organization field value resolves to the empty default
on both output surfaces. -/
theorem C10_dotted_source_paths :
    ∀ m : Metadata,
      lookupV m "issued.date-parts" = Option.none →
      lookupV m "event.name" = Option.none →
      "month" ∈ check_required_fields m "conference" ∧
      "organization" ∈ check_required_fields m "conference" ∧
      bibtex_value m "event.name" = "" ∧
      md_value m "event.name" = "" := by
  intro m h1 h2
  have htbl : (type_fields.find? (fun p => p.1 = "conference")).map (fun p => p.2) =
      some conference_fields := by decide
  refine ⟨?_, ?_, ?_, ?_⟩
  · refine (mem_check_required_fields m "conference" conference_fields htbl "month").mpr
      ⟨"issued.date-parts", by decide, ?_⟩
    simp only [dget, h1]
    rfl
  · refine (mem_check_required_fields m "conference" conference_fields htbl
      "organization").mpr ⟨"event.name", by decide, ?_⟩
    simp only [dget, h2]
    rfl
  · simp only [bibtex_value, dget, h2]
    rfl
  · simp only [md_value, dget, h2]
    rfl

/-- Witness for C10: a concrete Conference record with nested
`issued`/`event` data reports `month` and `organization` as missing and
resolves the organization field to the empty string. -/
theorem C10_dotted_source_paths_witness :
    "month" ∈ check_required_fields mConfNested "conference" ∧
    "organization" ∈ check_required_fields mConfNested "conference" ∧
    bibtex_value mConfNested "event.name" = "" ∧
    md_value mConfNested "event.name" = "" :=
  C10_dotted_source_paths mConfNested rfl rfl

end ObsidianTemplater
